import Mathlib

/-!
# Verification of the kanaka-data-project spreadsheet extraction pipeline

A shallow embedding, in Lean 4, of the string-normalisation, metadata
extraction, title extraction and workbook-manager logic of the
`kanaka-data-project` repository, together with theorems settling the
specification claims about that code.

Embedding conventions:
* Spreadsheet cells are `Option String` (`none` models a pandas missing
  value); the cell payloads relevant to the verified claims are strings.
* Python regular-expression rules from `src/constants/mappings.py` are
  translated into character-level scanning functions, one per named rule.
  Python's Unicode `\w` class is modelled over the ASCII range plus the
  Latin-1 Supplement / Latin Extended-A letters (which covers every
  character the pipeline's data uses, in particular U+00FF `ÿ`).
* Fallible Python code (raised exceptions) is modelled with
  `Option`/`Except` results.
-/

namespace KanakaData

/-! ## Character classes -/

/-- ASCII decimal digit, the `\d` class as used on this pipeline's data. -/
def isDigitChar (c : Char) : Bool :=
  '0' ≤ c && c ≤ '9'

/-- Python `\s` whitespace (ASCII part: space, tab, newline, CR, FF, VT). -/
def isSpaceChar (c : Char) : Bool :=
  c = ' ' || c = '\t' || c = '\n' || c = '\x0d' || c = '\x0b' || c = '\x0c'

/-- Python `\w` word character, modelled over ASCII alphanumerics, `_`,
and the Latin-1 Supplement / Latin Extended-A letters (U+00C0–U+017F
minus the two multiplication/division signs). -/
def isWordChar (c : Char) : Bool :=
  c.isAlphanum || c = '_' ||
    (0xC0 ≤ c.val && c.val ≤ 0x17F && c.val ≠ 0xD7 && c.val ≠ 0xF7)

/-- Characters stripped by Python `str.strip()` (ASCII whitespace). -/
def isStripChar (c : Char) : Bool :=
  isSpaceChar c

/-- Python `str.lower` restricted to the ASCII range used by the data. -/
def pyLowerChar (c : Char) : Char :=
  if 'A' ≤ c && c ≤ 'Z' then Char.ofNat (c.toNat + 32) else c

def pyLower (s : String) : String :=
  String.mk (s.toList.map pyLowerChar)

/-- Python `str.strip()`: remove leading and trailing whitespace. -/
def pyStripList (cs : List Char) : List Char :=
  ((cs.dropWhile isStripChar).reverse.dropWhile isStripChar).reverse

def pyStrip (s : String) : String :=
  String.mk (pyStripList s.toList)

/-- Substring test (`pat in s` in Python). -/
def listContainsSub (cs pat : List Char) : Bool :=
  (List.range (cs.length + 1)).any (fun i => pat.isPrefixOf (cs.drop i))

def strContainsSub (s pat : String) : Bool :=
  listContainsSub s.toList pat.toList

/-! ## The named cleanup rules of `PATTERN_MAP`
(`src/constants/mappings.py`), each regex translated to a character-level
scanner. -/

/-- The character class `[ÿ'‘]` of the `glottal_stop` rule. -/
def isGlottalChar (c : Char) : Bool :=
  c = Char.ofNat 0xFF || c = '\'' || c = Char.ofNat 0x2018

/-- The negative lookbehind `(?<!\b\w)` of `glottal_stop` *blocks* a match
exactly when the previous character is a word character that begins a word
(i.e. the character before it, `p2`, is absent or a non-word character). -/
def glottalBlockedBehind (p2 p1 : Option Char) : Bool :=
  match p1 with
  | none => false
  | some w =>
      isWordChar w &&
        (match p2 with
         | none => true
         | some v => !isWordChar v)

/-- A `\b` placed right after an `s`: the next character is absent or
a non-word character. -/
def wordBoundaryAfter (rest : List Char) : Bool :=
  match rest with
  | [] => true
  | c :: _ => !isWordChar c

/-- The negative lookahead `(?!\w?s\b)` of `glottal_stop` *blocks* a match
exactly when the following text matches `\w?s\b`. -/
def glottalBlockedAhead (rest : List Char) : Bool :=
  (match rest with
   | 's' :: r => wordBoundaryAfter r
   | _ => false) ||
  (match rest with
   | w :: 's' :: r => isWordChar w && wordBoundaryAfter r
   | _ => false)

/-- A `glottal_stop` match at the current character, given the two
preceding characters of the input and the remaining input. -/
def glottalMatch (p2 p1 : Option Char) (c : Char) (rest : List Char) : Bool :=
  isGlottalChar c && !glottalBlockedBehind p2 p1 && !glottalBlockedAhead rest

/-- Applying `re.sub` with the `glottal_stop` rule: left-to-right scan; the two
previously scanned input characters are carried as lookbehind context. -/
def glottalSub : Option Char → Option Char → List Char → List Char
  | _, _, [] => []
  | p2, p1, c :: rest =>
    if glottalMatch p2 p1 c rest then
      glottalSub p1 (some c) rest
    else
      c :: glottalSub p1 (some c) rest

def cleanGlottalStop (s : String) : String :=
  String.mk (glottalSub none none s.toList)

/-- The `whitespace` rule `[\. ]+` → `"_"`: collapse each run of dots/spaces
to a single underscore (the Bool flag records being inside a run). -/
def whitespaceRunSub : Bool → List Char → List Char
  | _, [] => []
  | inRun, c :: rest =>
    if c = '.' || c = ' ' then
      if inRun then whitespaceRunSub true rest
      else '_' :: whitespaceRunSub true rest
    else c :: whitespaceRunSub false rest

def cleanWhitespaceRule (s : String) : String :=
  String.mk (whitespaceRunSub false s.toList)

/-- Bullet characters `[\*\•\-]` of the `bullet` rule. -/
def isBulletChar (c : Char) : Bool :=
  c = '*' || c = Char.ofNat 0x2022 || c = '-'

/-- The `bullet` rule `^[\s]*[\*\•\-]{1,2}\s*` → `""`: anchored at the start;
greedy 1–2 bullet characters after optional whitespace, then trailing
whitespace, all removed.  No bullet character after the leading
whitespace means no match at all. -/
def bulletSubList (cs : List Char) : List Char :=
  match cs.dropWhile isSpaceChar with
  | [] => cs
  | b1 :: r1 =>
    if isBulletChar b1 then
      match r1 with
      | b2 :: r2 =>
        if isBulletChar b2 then r2.dropWhile isSpaceChar
        else r1.dropWhile isSpaceChar
      | [] => []
    else cs

def cleanBullet (s : String) : String :=
  String.mk (bulletSubList s.toList)

/-- The `newline` rule `\n` → `"; "`. -/
def newlineSub : List Char → List Char
  | [] => []
  | c :: rest =>
    if c = '\n' then ';' :: ' ' :: newlineSub rest
    else c :: newlineSub rest

def cleanNewline (s : String) : String :=
  String.mk (newlineSub s.toList)

/-- The `non_breaking_space` rule `\xa0+` → `" "`: collapse each run of
non-breaking spaces to one ordinary space. -/
def nbspSub : Bool → List Char → List Char
  | _, [] => []
  | inRun, c :: rest =>
    if c = Char.ofNat 0xA0 then
      if inRun then nbspSub true rest
      else ' ' :: nbspSub true rest
    else c :: nbspSub false rest

def cleanNonBreakingSpace (s : String) : String :=
  String.mk (nbspSub false s.toList)

/-- The `hyphens` rule `[‑‑]` → `"-"` (the class contains only U+2011,
written twice in the source). -/
def hyphensSub (cs : List Char) : List Char :=
  cs.map (fun c => if c = Char.ofNat 0x2011 then '-' else c)

def cleanHyphens (s : String) : String :=
  String.mk (hyphensSub s.toList)

/-- The `asterisk` rule `\s*\*\s*` → `""` and `slash` rule `\s*/\s*` → `"_or_"`
share the shape "whitespace run, marker, whitespace run".  `slashScan`
scans left to right: pending whitespace is buffered until it turns out to
precede a `/` (then it is consumed by the match) or not (then it is
emitted); after a match the trailing whitespace run is dropped
(`dropMode`). -/
def slashScan : Bool → List Char → List Char → List Char
  | _, pending, [] => pending.reverse
  | dropMode, pending, c :: rest =>
    if dropMode then
      if isSpaceChar c then slashScan true [] rest
      else if c = '/' then '_' :: 'o' :: 'r' :: '_' :: slashScan true [] rest
      else c :: slashScan false [] rest
    else
      if c = '/' then '_' :: 'o' :: 'r' :: '_' :: slashScan true [] rest
      else if isSpaceChar c then slashScan false (c :: pending) rest
      else pending.reverse ++ c :: slashScan false [] rest

def cleanSlash (s : String) : String :=
  String.mk (slashScan false [] s.toList)

/-- The `asterisk` rule `\s*\*\s*` → `""`, same scan with `*` and empty
replacement. -/
def asteriskScan : Bool → List Char → List Char → List Char
  | _, pending, [] => pending.reverse
  | dropMode, pending, c :: rest =>
    if dropMode then
      if isSpaceChar c then asteriskScan true [] rest
      else if c = '*' then asteriskScan true [] rest
      else c :: asteriskScan false [] rest
    else
      if c = '*' then asteriskScan true [] rest
      else if isSpaceChar c then asteriskScan false (c :: pending) rest
      else pending.reverse ++ c :: asteriskScan false [] rest

def cleanAsterisk (s : String) : String :=
  String.mk (asteriskScan false [] s.toList)

/-- The `parentheses` rule `[()]` → `""`. -/
def cleanParentheses (s : String) : String :=
  String.mk (s.toList.filter (fun c => c ≠ '(' && c ≠ ')'))

/-- The `comma` rule `,\s*` → `""`: a comma and the whitespace run following
it are removed (`dropMode` marks being in that trailing run). -/
def commaSub : Bool → List Char → List Char
  | _, [] => []
  | dropMode, c :: rest =>
    if dropMode && isSpaceChar c then commaSub true rest
    else if c = ',' then commaSub true rest
    else c :: commaSub false rest

def cleanComma (s : String) : String :=
  String.mk (commaSub false s.toList)

/-- The `apostrophe` rule `'` → `""`. -/
def cleanApostrophe (s : String) : String :=
  String.mk (s.toList.filter (fun c => c ≠ '\''))

/-- The function `clean_string_with_named_patterns` (`src/utils.py`): apply the named
rules of `PATTERN_MAP` in the order given; an unknown rule name raises
`KeyError`, modelled as `none`.  The `remove_state` rule is not embedded:
no verified component refers to it. -/
def applyNamedPattern (key : String) (s : String) : Option String :=
  if key = "glottal_stop" then some (cleanGlottalStop s)
  else if key = "whitespace" then some (cleanWhitespaceRule s)
  else if key = "bullet" then some (cleanBullet s)
  else if key = "newline" then some (cleanNewline s)
  else if key = "non_breaking_space" then some (cleanNonBreakingSpace s)
  else if key = "hyphens" then some (cleanHyphens s)
  else if key = "asterisk" then some (cleanAsterisk s)
  else if key = "slash" then some (cleanSlash s)
  else if key = "parentheses" then some (cleanParentheses s)
  else if key = "comma" then some (cleanComma s)
  else if key = "apostrophe" then some (cleanApostrophe s)
  else none

def clean_string_with_named_patterns (s : String) (patternKeys : List String) :
    Option String :=
  patternKeys.foldlM (fun acc key => applyNamedPattern key acc) s

/-! ## Year extraction (`extract_years_from_string`, `src/utils.py`)

`re.findall(r"(\d{4})\s*-\s*(\d{4})|\b(\d{4})\b", ...)` after normalising
hyphens: a left-to-right non-overlapping scan trying, at each position,
first the range alternative and then the word-bounded single year. -/

/-- A matched year item: a standalone year or a `YYYY-YYYY` range. -/
inductive YearItem where
  | single (y : Nat)
  | range (a b : Nat)
deriving DecidableEq, Repr

def digitVal (c : Char) : Nat := c.toNat - '0'.toNat

/-- Match `\d{4}` at the head of the input, returning the value and rest. -/
def takeDigits4 : List Char → Option (Nat × List Char)
  | c1 :: c2 :: c3 :: c4 :: rest =>
    if isDigitChar c1 && isDigitChar c2 && isDigitChar c3 && isDigitChar c4 then
      some (1000 * digitVal c1 + 100 * digitVal c2 + 10 * digitVal c3 + digitVal c4, rest)
    else none
  | _ => none

/-- Match the first alternative `(\d{4})\s*-\s*(\d{4})` at the head. -/
def matchYearRange (cs : List Char) : Option (Nat × Nat × List Char) :=
  match takeDigits4 cs with
  | none => none
  | some (y1, r1) =>
    match r1.dropWhile isSpaceChar with
    | '-' :: r3 =>
      match takeDigits4 (r3.dropWhile isSpaceChar) with
      | some (y2, r4) => some (y1, y2, r4)
      | none => none
    | _ => none

/-- Match the second alternative `\b(\d{4})\b` at the head; the leading
word boundary is the `prevIsWord` flag of the scan. -/
def matchSingleYear (prevIsWord : Bool) (cs : List Char) : Option (Nat × List Char) :=
  if prevIsWord then none
  else
    match takeDigits4 cs with
    | some (y, r) => if wordBoundaryAfter r then some (y, r) else none
    | none => none

/-- The `findall` scan: at each position try the range alternative, then
the single-year alternative, else advance one character; `prevIsWord`
tracks whether the previous input character is a word character (for the
leading `\b`).  Structural recursion is obtained via a fuel parameter;
every step consumes at least one input character, so fuel equal to the
input length (as supplied by `extract_years_from_string`) never runs
out. -/
def findYears : Nat → Bool → List Char → List YearItem
  | 0, _, _ => []
  | _, _, [] => []
  | fuel + 1, prevIsWord, c :: rest =>
    match matchYearRange (c :: rest) with
    | some (y1, y2, r) => YearItem.range y1 y2 :: findYears fuel true r
    | none =>
      match matchSingleYear prevIsWord (c :: rest) with
      | some (y, r) => YearItem.single y :: findYears fuel true r
      | none => findYears fuel (isWordChar c) rest

/-- The function `extract_years_from_string` (`src/utils.py`): standardise hyphens via
the `hyphens` rule, then run the `findall` scan. -/
def extract_years_from_string (title : String) : List YearItem :=
  findYears (cleanHyphens title).toList.length false (cleanHyphens title).toList

/-! ## Metadata categorisation (`DataFrameManager.categorize_metadata`,
`src/datacore/df_manager.py`)

The Python function destructively pops every element of its argument set
and buckets it into a `defaultdict(list)`.  The iteration order of a
Python set is unspecified; the embedding takes the elements as a list in
that (arbitrary) pop order and passes the remaining-set state explicitly.
The returned dict holds a `"source"` key (always created, by the length
check) and a `"notes"` key (created only when some note was appended). -/

/-- A value of the returned metadata dict: a bare string or a list. -/
inductive MetaValue where
  | str (s : String)
  | list (l : List String)
deriving DecidableEq, Repr

/-- The dict returned by `categorize_metadata`; `none` models an absent
key. -/
structure MetaDict where
  source : Option MetaValue
  notes : Option (List String)
deriving DecidableEq, Repr

/-- Python `item.split(":", 1)[-1]`: everything after the first colon, or the
whole string when it has no colon. -/
def afterFirstColon (s : String) : String :=
  match s.toList.splitOn ':' with
  | [] => s
  | [_] => s
  | _ :: rest => String.mk (List.intercalate [':'] rest)

/-- One iteration of the `while metadata_set:` loop body: bucket an item
into (sources, notes). -/
def categorizeStep (acc : List String × List String) (item : String) :
    List String × List String :=
  if "source".toList.isPrefixOf (pyLower item).toList then
    (acc.1 ++ [afterFirstColon item |> pyStrip], acc.2)
  else
    (acc.1, acc.2 ++ [item])

/-- The full `while` loop with the remaining-set state passed explicitly:
returns the two buckets and the final state of the caller's set. -/
def categorizeConsume : List String → (List String × List String) →
    (List String × List String) × List String
  | [], acc => (acc, [])
  | item :: rest, acc => categorizeConsume rest (categorizeStep acc item)

/-- The function `categorize_metadata`: run the loop, then collapse a one-element
source list to a bare string; `"notes"` appears only if a note exists. -/
def categorize_metadata (items : List String) : MetaDict :=
  let res := categorizeConsume items ([], [])
  let srcs := res.1.1
  let notes := res.1.2
  { source :=
      some (match srcs with
            | [s] => MetaValue.str s
            | l => MetaValue.list l),
    notes := if notes.isEmpty then none else some notes }

/-! ## Title-sheet resolution (`DataFrameManager.find_titles_sheet_name`,
`src/datacore/df_manager.py`) -/

/-- The function `find_titles_sheet_name`: an explicit `titles_sheet_name` keyword wins;
else the first key containing the substring `"Titles"` or `"Title"`
(a case-sensitive containment test); else `KeyError`. -/
def find_titles_sheet_name (dfDictKeys : List String)
    (titlesSheetNameKw : Option String) : Except String String :=
  match titlesSheetNameKw with
  | some name => Except.ok name
  | none =>
    match dfDictKeys.find?
        (fun k => strContainsSub k "Titles" || strContainsSub k "Title") with
    | some k => Except.ok k
    | none => Except.error "Title sheet name not found in the DataFrame dictionary."

/-! ## Data model: sheets and workbooks

A cell is `Option String` (`none` = pandas missing value); a sheet is the
ordered list of its rows; a workbook is the ordered mapping sheet-name →
sheet produced by `pd.read_excel(..., sheet_name=None)`. -/

abbrev Cell := Option String

abbrev DataRow := List Cell

abbrev Sheet := List DataRow

abbrev Workbook := List (String × Sheet)

def lookupSheet (wb : Workbook) (name : String) : Option Sheet :=
  (wb.find? (fun p => p.1 = name)).map (·.2)

/-- Pandas `df.dropna()` (drop rows containing any missing value), keeping the
original positional labels of the surviving rows. -/
def dropnaAnyLabeled (df : Sheet) : List (Nat × DataRow) :=
  df.enum.filter (fun p => p.2.all Option.isSome)

/-- Pandas `df.dropna(how="all")` (drop only all-missing rows). -/
def dropnaAll (df : Sheet) : Sheet :=
  df.filter (fun r => !r.all Option.isNone)

/-- Python list slicing `l[start:]` with a possibly negative `start`. -/
def pySliceFrom (l : List α) (start : Int) : List α :=
  if start < 0 then l.drop ((l.length + start).toNat) else l.drop start.toNat

/-! ## Metadata extraction (`extract_metadata`,
`src/datacore/df_manager/parsing.py`) -/

/-- The row mask `df.iloc[:, 1:].isna().all(axis=1)`: all cells from
column 1 onward are missing (the `column_idx` argument plays no part in
this test). -/
def metadataRowMask (r : DataRow) : Bool :=
  (r.drop 1).all Option.isNone

/-- The cleaning applied to each extracted metadata value:
`clean_string_with_named_patterns(x, "glottal_stop", "bullet", "newline",
"non_breaking_space")`. -/
def cleanMetadataValue (s : String) : String :=
  cleanNonBreakingSpace (cleanNewline (cleanBullet (cleanGlottalStop s)))

/-- The function `extract_metadata(df, column_idx, remove_rows)`: rows matching the
mask contribute the (stripped, cleaned) value of column `column_idx`; the
values are deduplicated (Python `set`); with `remove_rows` the masked
rows are removed from the returned table. -/
def extract_metadata (df : Sheet) (columnIdx : Nat := 0)
    (removeRows : Bool := true) : List String × Sheet :=
  let metaRows := df.filter metadataRowMask
  let values := metaRows.filterMap (fun r => r.getD columnIdx none)
  let metadata := (values.map (fun v => cleanMetadataValue (pyStrip v))).dedup
  (metadata, if removeRows then df.filter (fun r => !metadataRowMask r) else df)

/-- The claim's own classification rule, stated from the spec's words:
a row is metadata iff every cell except the one at `column_idx` is
missing. -/
def specMetadataRow (r : DataRow) (columnIdx : Nat) : Bool :=
  (r.eraseIdx columnIdx).all Option.isNone

/-! ## Title extraction (`DataFrameManager.extract_table_names`,
`src/datacore/df_manager.py`) -/

def THEME_MAP : List (String × String) :=
  [("POP", "Population"), ("INC", "Income"), ("HOU", "Housing"),
   ("EMP", "Employment"), ("LND", "Environment"), ("HTH", "Health"),
   ("EDU", "Education")]

/-- Python `table.split(" ")[-1]` (note: `str.split` with an explicit single
space separator keeps empty fields). -/
def lastSpaceField (s : String) : String :=
  String.mk ((s.toList.splitOn ' ').getLastD [])

/-- A processed titles row `(table, theme, name)`; `none` for a Python
`None` entry.  The outer `Option` propagates a `KeyError` from an
unknown cleaning-pattern name. -/
def process_titles_row (titleSheetType : String)
    (titleCleaningPatterns : Option (List String)) (row : DataRow) :
    Option (Option String × Option String × Option String) :=
  let table := (row.getD 0 none).getD ""    -- non-null after `dropna()`
  let tableName := (row.getD 1 none).getD ""
  if titleSheetType = "normal" then
    if strContainsSub table "Table" && table ≠ "Table" then
      let tableId := "0" ++ lastSpaceField table
      match titleCleaningPatterns with
      | some pats =>
        match clean_string_with_named_patterns tableName pats with
        | some cleaned => some (some tableId, none, some cleaned)
        | none => none
      | none => some (some tableId, none, some tableName)
    else if strContainsSub table "Introduction" then
      some (some "Introduction", none, some tableName)
    else
      some (none, none, none)
  else if titleSheetType = "wiki" then
    let themeCode := table.toList.takeWhile (fun c => 'A' ≤ c && c ≤ 'Z')
    let theme :=
      if themeCode.isEmpty then none
      else (THEME_MAP.find? (fun p => p.1 = String.mk themeCode)).map (·.2)
    let cleanedName :=
      match titleCleaningPatterns with
      | some pats => clean_string_with_named_patterns tableName pats
      | none => some tableName
    match cleanedName with
    | none => none
    | some nm =>
      if strContainsSub table "Introduction" then
        some (some "Introduction", theme, some nm)
      else
        some (some (cleanHyphens table), theme, some nm)
  else
    some (none, none, none)

/-- The `.apply(...)` mapping over the rows with error propagation. -/
def processRows (f : DataRow → Option (Option String × Option String × Option String)) :
    List (Nat × DataRow) → Option (List (Option String × Option String × Option String))
  | [] => some []
  | p :: rest =>
    match f p.2 with
    | none => none
    | some e =>
      match processRows f rest with
      | none => none
      | some es => some (e :: es)

/-- The title map produced by
`.set_index(0).rename(columns={1:"theme",2:"name"}).to_dict(orient="index")`:
an association list keyed by the first processed component.  `to_dict`
with `orient="index"` requires a unique index and raises otherwise. -/
abbrev TitleMap := List (Option String × Option String × Option String)

/-- The `idxmax()` of the boolean series `col0 contains "Table"` over the
labelled rows: the label of the first `true`, else the first label; on an
empty frame `idxmax` raises. -/
def firstTableLabel (rows : List (Nat × DataRow)) : Option Nat :=
  match rows.find? (fun p => match p.2.getD 0 none with
                             | some s => strContainsSub s "Table"
                             | none => false) with
  | some p => some p.1
  | none => rows.head?.map (·.1)

/-- The method `extract_table_names` (`src/datacore/df_manager.py`): drop incomplete
rows of the titles sheet, slice from two positions before the first
"Table" row label, process every sliced row, and key the result by the
derived first component. -/
def extract_table_names (wb : Workbook) (titlesSheetName : String)
    (titleCleaningPatterns : Option (List String) := none)
    (titleSheetType : String := "normal") : Except String TitleMap :=
  match lookupSheet wb titlesSheetName with
  | none => Except.error "KeyError: titles sheet not in DataFrame dictionary"
  | some sheet =>
    let titleDf := dropnaAnyLabeled sheet
    match firstTableLabel titleDf with
    | none => Except.error "ValueError: idxmax of an empty sequence"
    | some lbl =>
      let tableRows := pySliceFrom titleDf ((lbl : Int) - 2)
      match processRows (process_titles_row titleSheetType titleCleaningPatterns)
          tableRows with
      | none => Except.error "KeyError: pattern key not found in PATTERN_MAP"
      | some processed =>
        if (processed.map (·.1)).Nodup then Except.ok processed
        else Except.error "ValueError: DataFrame index must be unique"

/-- The lookup `table_names_and_themes.get(key, {})` followed by `.get("theme")` /
`.get("name", key)`: find the entry keyed by this sheet name. -/
def titleLookup (m : TitleMap) (sheetKey : String) :
    Option (Option String × Option String) :=
  (m.find? (fun e => e.1 = some sheetKey)).map (fun e => (e.2.1, e.2.2))

/-! ## The workbook manager (`DataFrameManager`,
`src/datacore/df_manager.py`)

The manager is a `dict` subclass; it is modelled as an insertion-ordered
association list with Python-dict update semantics.  Keys are either the
auto-incremented integers or the literal sheet key `"Introduction"`. -/

/-- A key of the manager dictionary. -/
inductive MKey where
  | int (n : Nat)
  | str (s : String)
deriving DecidableEq, Repr

/-- Dataclass `DataFrameEntry` (`src/datacore/df_entry.py`) without the wall-clock
`last_modified` field, which no claim concerns. -/
structure DataFrameEntry where
  dataframe : Sheet
  name : Option String
  original_sheet_name : Option String
  years_covered : List YearItem
  metadata : MetaDict
  tags : List String
deriving DecidableEq, Repr

abbrev Manager := List (MKey × DataFrameEntry)

/-- Assignment `self[k] = v` on a Python dict: overwrite in place if the key exists
(keeping its position), else append. -/
def dictInsert (m : Manager) (k : MKey) (v : DataFrameEntry) : Manager :=
  if m.any (fun p => p.1 = k) then
    m.map (fun p => if p.1 = k then (k, v) else p)
  else m ++ [(k, v)]

def managerLookup (m : Manager) (k : MKey) : Option DataFrameEntry :=
  (m.find? (fun p => p.1 = k)).map (·.2)

def managerKeys (m : Manager) : List MKey :=
  m.map (·.1)

/-- The keyword arguments threaded through `load_from_url` /
`_process_raw_dataframes` that the manager inspects. -/
structure LoadOpts where
  titlesSheetNameKw : Option String := none
  dropTitleSheet : Bool := false
  titleSheetType : String := "normal"
  titleCleaningPatterns : Option (List String) := none

/-- The per-sheet body of the loop in `_process_raw_dataframes`: build
the `DataFrameEntry` for one sheet and insert it under the next integer
key (or under `"Introduction"`). -/
def processSheetStep (titleMap : TitleMap) (acc : Manager × Nat)
    (sheetEntry : String × Sheet) : Manager × Nat :=
  let key := sheetEntry.1
  let info := titleLookup titleMap key
  let tableName : Option String :=
    match info with
    | none => some key            -- `.get("name", key)` on the empty dict
    | some (_, nm) => nm          -- the `"name"` value, possibly `None`
  let tableTheme : Option String :=
    match info with
    | none => none
    | some (th, _) => th
  let prepared := dropnaAll sheetEntry.2
  let extracted := extract_metadata prepared 0 true
  let entry : DataFrameEntry :=
    { dataframe := extracted.2,
      name := tableName,
      original_sheet_name := some key,
      years_covered :=
        match tableName with                     -- `if table_name` truthiness
        | some nm => if nm = "" then [] else extract_years_from_string nm
        | none => [],
      metadata := categorize_metadata extracted.1,
      tags :=
        match tableTheme with                    -- `if table_theme` truthiness
        | some t => if t = "" then [] else [t]
        | none => [] }
  if key ≠ "Introduction" then
    (dictInsert acc.1 (MKey.int acc.2) entry, acc.2 + 1)
  else
    (dictInsert acc.1 (MKey.str key) entry, acc.2)

/-- The method `_process_raw_dataframes`: resolve the titles sheet, extract the
title map, optionally drop the titles sheet, then process every
remaining sheet in workbook order starting the integer keys at 1.
The manager's existing entries (`state`) are *not* cleared first. -/
def process_raw_dataframes (state : Manager) (wb : Workbook) (opts : LoadOpts) :
    Except String Manager :=
  match find_titles_sheet_name (wb.map (·.1)) opts.titlesSheetNameKw with
  | Except.error e => Except.error e
  | Except.ok titlesSheetName =>
    match extract_table_names wb titlesSheetName
        opts.titleCleaningPatterns opts.titleSheetType with
    | Except.error e => Except.error e
    | Except.ok titleMap =>
      let wb' :=
        if opts.dropTitleSheet then wb.filter (fun p => p.1 ≠ titlesSheetName)
        else wb
      Except.ok (wb'.foldl (processSheetStep titleMap) (state, 1)).1

/-- The methods `load_from_url` / `load_from_excel`: fail on a non-empty manager
unless `overwrite=True`, else run `_process_raw_dataframes` over the
parsed workbook.  (Fetching and parsing the bytes is the external
collaborator of spec §6; the parsed workbook is the input here.) -/
def load_workbook (state : Manager) (wb : Workbook) (overwrite : Bool := false)
    (opts : LoadOpts := {}) : Except String Manager :=
  if !overwrite && state ≠ [] then
    Except.error "DataFrames already exist. Use 'overwrite=True' to replace them."
  else
    process_raw_dataframes state wb opts

/-! ## Column-name formatting (`format_column_name`,
`src/datacore/df_manager/formatting.py`)

The verified calls use the default `ignored`, `substitutions` and
`named_patterns` arguments, which are embedded as the fixed tables
below. -/

def IGNORED_WORDS : List String := ["census", "estimates"]

/-- Table `SUBSTITUTION_MAP` (`src/constants/mappings.py`). -/
def SUBSTITUTION_MAP : List (String × String) :=
  [("%", "percent"), ("populationa", "population"), ("populationb", "population"),
   ("hawaiiana", "hawaiian"), ("hawaiianb", "hawaiian")]

/-- The default `named_patterns` list of `format_column_name`. -/
def defaultColumnPatterns : List String :=
  ["slash", "parentheses", "comma", "hyphens", "glottal_stop", "apostrophe"]

/-- Those six rules applied in order. -/
def defaultColumnClean (s : String) : String :=
  cleanApostrophe (cleanGlottalStop (cleanHyphens (cleanComma (cleanParentheses (cleanSlash s)))))

/-- A delimiter of the token split `re.split(r"[\. ]+", ...)`. -/
def isTokenDelim (c : Char) : Bool :=
  c = '.' || c = ' '

mutual

/-- The split `re.split(r"[\. ]+", ...)`: accumulate the current token (reversed in
`tok`); a delimiter ends the token and switches to run-skipping. -/
def splitDelimRuns : List Char → List Char → List (List Char)
  | tok, [] => [tok.reverse]
  | tok, c :: rest =>
    if isTokenDelim c then tok.reverse :: splitDelimSkip rest
    else splitDelimRuns (c :: tok) rest

/-- Skip the remainder of a delimiter run. -/
def splitDelimSkip : List Char → List (List Char)
  | [] => [[]]
  | c :: rest =>
    if isTokenDelim c then splitDelimSkip rest
    else splitDelimRuns [c] rest

end

/-- Python `"_".join(...)`. -/
def joinUnderscore : List (List Char) → List Char
  | [] => []
  | [t] => t
  | t :: ts => t ++ '_' :: joinUnderscore ts

/-- Python `.strip("_")`. -/
def stripUnderscoreList (cs : List Char) : List Char :=
  ((cs.dropWhile (fun c => c = '_')).reverse.dropWhile (fun c => c = '_')).reverse

/-- The function `format_column_name` with its default arguments: lowercase, split on
dot/space runs, drop ignored tokens, substitute via `SUBSTITUTION_MAP`,
clean each token with the six default rules, join with `_`, strip
leading/trailing underscores. -/
def format_column_name (name : String) : String :=
  let words := splitDelimRuns [] (pyLower name).toList
  let formatted := words.foldl
    (fun (acc : List (List Char)) (w : List Char) =>
      let word := String.mk w
      if IGNORED_WORDS.contains word then acc
      else
        let substituted := (((SUBSTITUTION_MAP.find? (fun p => p.1 = word)).map (·.2)).getD word)
        acc ++ [(defaultColumnClean substituted).toList])
    []
  String.mk (stripUnderscoreList (joinUnderscore formatted))

def isLowerAlpha (c : Char) : Bool :=
  'a' ≤ c && c ≤ 'z'

/-- The claim's hypothesis, stated from the spec's words: `s` consists
only of lowercase, underscore-separated tokens containing no ignored
words. -/
def IsFormattedKey (s : String) : Prop :=
  ∃ tokens : List (List Char),
    tokens ≠ [] ∧
    s.toList = joinUnderscore tokens ∧
    ∀ t ∈ tokens, t ≠ [] ∧ t.all isLowerAlpha = true ∧ String.mk t ∉ IGNORED_WORDS

/-! ## Positional characterisation of the `glottal_stop` rule (spec side,
for the claim about which occurrences are removed) -/

/-- The two characters before position `i` of `cs`, where `(p2, p1)` are
the two characters preceding `cs` itself. -/
def ctxAt (p2 p1 : Option Char) (cs : List Char) : Nat → Option Char × Option Char
  | 0 => (p2, p1)
  | 1 => (p1, cs[0]?)
  | i + 2 => (cs[i]?, cs[i + 1]?)

/-- Position `i` of `cs` is removed by the `glottal_stop` rule: its
character is in the rule's class and neither lookaround guard blocks. -/
def glottalRemovedAt (p2 p1 : Option Char) (cs : List Char) (i : Nat) : Bool :=
  match cs[i]? with
  | none => false
  | some c => glottalMatch (ctxAt p2 p1 cs i).1 (ctxAt p2 p1 cs i).2 c (cs.drop (i + 1))

/-- Keep exactly the positions the rule does not remove. -/
def glottalSpecFilter (cs : List Char) : List Char :=
  (List.range cs.length).filterMap
    (fun i => if glottalRemovedAt none none cs i then none else cs[i]?)

/-! ## Helper views of `categorize_metadata` (for the claims about its
buckets) -/

def isSourceLine (item : String) : Bool :=
  "source".toList.isPrefixOf (pyLower item).toList

def sourceLines (items : List String) : List String :=
  (items.filter isSourceLine).map (fun i => pyStrip (afterFirstColon i))

def noteLines (items : List String) : List String :=
  items.filter (fun i => !isSourceLine i)

/-! ## Concrete workbooks used by the claims -/

/-- The titles sheet of the end-to-end scenario (spec §8). -/
def scenarioTitlesSheet : Sheet :=
  [[some "Table 1", some "Population by Island"],
   [some "Table 2", some "Housing Units"]]

/-- A plain data sheet. -/
def scenarioDataSheet : Sheet :=
  [[some "Year", some "Pop"], [some "2006", some "100"]]

/-- The end-to-end scenario workbook: sheets `["Titles", "01.01", "01.02"]`. -/
def scenarioWorkbook : Workbook :=
  [("Titles", scenarioTitlesSheet),
   ("01.01", scenarioDataSheet),
   ("01.02", scenarioDataSheet)]

/-- A titles sheet whose second row matches no recognised marker. -/
def unmatchedTitlesSheet : Sheet :=
  [[some "Table 1", some "A"], [some "Banner", some "B"]]

def unmatchedWorkbook : Workbook :=
  [("Titles", unmatchedTitlesSheet)]

/-- A workbook with one data sheet besides the titles sheet. -/
def twoSheetWorkbook : Workbook :=
  [("Titles", scenarioTitlesSheet), ("S1", scenarioDataSheet)]

/-- A workbook whose only sheet is a titles sheet. -/
def titlesOnlyWorkbook : Workbook :=
  [("Titles", [[some "Table 1", some "X"]])]

end KanakaData

/-! # Theorems settling the claims -/

namespace KanakaData

/-! ## Bridge lemmas: the named-pattern lookups used by the pipeline
resolve to the rule composites embedded above. -/

theorem cleanNamed_metadata_rules (s : String) :
    clean_string_with_named_patterns s
      ["glottal_stop", "bullet", "newline", "non_breaking_space"] =
      some (cleanMetadataValue s) := rfl

theorem cleanNamed_column_rules (s : String) :
    clean_string_with_named_patterns s defaultColumnPatterns =
      some (defaultColumnClean s) := rfl

theorem cleanNamed_hyphens_rule (s : String) :
    clean_string_with_named_patterns s ["hyphens"] = some (cleanHyphens s) := rfl

end KanakaData

/-- C1: for the workbook with sheets `["Titles", "01.01", "01.02"]` whose
`Titles` sheet holds `["Table 1", "Population by Island"]` and
`["Table 2", "Housing Units"]`, the claim says loading yields exactly the
keys `{1, 2}` with names `"Population by Island"` / `"Housing Units"` and
no entry for the `Titles` sheet.  The code does not: `extract_table_names`
keys its result by the derived table id (`"01"`, `"02"`), not by sheet
name, so the per-sheet lookup misses and every name falls back to the raw
sheet key; moreover the titles sheet is kept (and becomes entry 1) unless
`drop_title_sheet=True` is passed.  This theorem evaluates the embedded
code on the claim's workbook, exhibiting both divergences. -/
theorem KanakaData.c1_end_to_end_scenario_divergence :
    extract_table_names scenarioWorkbook "Titles" =
      Except.ok [(some "01", none, some "Population by Island"),
                 (some "02", none, some "Housing Units")] ∧
    (load_workbook [] scenarioWorkbook).map
        (fun m => m.map (fun p => (p.1, p.2.name))) =
      Except.ok [(MKey.int 1, some "Titles"), (MKey.int 2, some "01.01"),
                 (MKey.int 3, some "01.02")] ∧
    (load_workbook [] scenarioWorkbook false { dropTitleSheet := true }).map
        (fun m => m.map (fun p => (p.1, p.2.name))) =
      Except.ok [(MKey.int 1, some "01.01"), (MKey.int 2, some "01.02")] :=
  ⟨rfl, rfl, rfl⟩

/-- C3: the claim says a row is metadata iff every cell except the one at
`column_idx` is missing.  The code's mask is hard-coded to columns `1:`
(`df.iloc[:, 1:].isna().all(axis=1)`) and ignores `column_idx`: for the
one-row table `[[missing, "x"]]` with `column_idx = 1` the row satisfies
the claim's rule but is classified as data (nothing extracted, row kept).
With `column_idx = 0` (the mask's implicit column) the split behaves as
claimed. -/
theorem KanakaData.c3_column_idx_divergence :
    specMetadataRow [none, some "x"] 1 = true ∧
    extract_metadata [[none, some "x"]] 1 true = ([], [[none, some "x"]]) ∧
    extract_metadata [[some "note", none]] 0 true = (["note"], []) :=
  ⟨by decide, rfl, rfl⟩

/-- C7: `extract_years_from_string` first normalises hyphen variants,
then scans left to right emitting each `YYYY-YYYY` range as a pair and
each standalone four-digit year as a single item, preserving duplicates
and encounter order: the spec's three examples, a duplicate-preserving
input, and an input whose range is written with the U+2011 hyphen
variant. -/
theorem KanakaData.c7_extract_years :
    extract_years_from_string "Population 2006" = [YearItem.single 2006] ∧
    extract_years_from_string "Housing: 2006-2010" = [YearItem.range 2006 2010] ∧
    extract_years_from_string "Income 2006, 2008-2010, 2012" =
      [YearItem.single 2006, YearItem.range 2008 2010, YearItem.single 2012] ∧
    extract_years_from_string "2006 and 2006" =
      [YearItem.single 2006, YearItem.single 2006] ∧
    extract_years_from_string
        ("Budget 2006" ++ String.mk [Char.ofNat 0x2011] ++ "2010") =
      [YearItem.range 2006 2010] :=
  ⟨by decide, by decide, by decide, by decide, by decide⟩

/-- C10: `categorize_metadata` is destructive on its argument: the
`while metadata_set:` loop pops until the set is empty, so after the call
the caller's set holds no elements, whatever the elements and whatever
state the loop's accumulators start in.  (The function is a `@staticmethod`
whose body touches only the set and its local dict, so no other manager
state is involved.) -/
theorem KanakaData.c10_categorize_metadata_consumes_argument :
    ∀ (items : List String) (acc : List String × List String),
      (categorizeConsume items acc).2 = [] := by
  intro items
  induction items with
  | nil => intro acc; rfl
  | cons i rest ih => intro acc; simpa [categorizeConsume] using ih _

/-! ## C4: `categorize_metadata` buckets -/

namespace KanakaData

/-- The loop's accumulators end as the initial accumulators extended by
the source and note lines of the items, and the set ends empty. -/
theorem categorizeConsume_spec :
    ∀ (items accS accN : List String),
      categorizeConsume items (accS, accN) =
        ((accS ++ sourceLines items, accN ++ noteLines items), []) := by
  intro items
  induction items with
  | nil => intro accS accN; simp [categorizeConsume, sourceLines, noteLines]
  | cons i rest ih =>
    intro accS accN
    show categorizeConsume rest (categorizeStep (accS, accN) i) = _
    by_cases hi : isSourceLine i
    · have hcond := hi
      unfold isSourceLine at hcond
      have hstep : categorizeStep (accS, accN) i =
          (accS ++ [pyStrip (afterFirstColon i)], accN) := by
        unfold categorizeStep
        rw [hcond]
        simp
      rw [hstep, ih]
      have h1 : sourceLines (i :: rest) =
          pyStrip (afterFirstColon i) :: sourceLines rest := by
        simp [sourceLines, List.filter_cons, hi]
      have h2 : noteLines (i :: rest) = noteLines rest := by
        simp [noteLines, List.filter_cons, hi]
      rw [h1, h2]
      simp
    · have hcond := hi
      unfold isSourceLine at hcond
      have hstep : categorizeStep (accS, accN) i = (accS, accN ++ [i]) := by
        rw [Bool.not_eq_true] at hcond
        unfold categorizeStep
        rw [hcond]
        simp
      rw [hstep, ih]
      have h1 : sourceLines (i :: rest) = sourceLines rest := by
        simp [sourceLines, List.filter_cons, hi]
      have h2 : noteLines (i :: rest) = i :: noteLines rest := by
        simp [noteLines, List.filter_cons, hi]
      rw [h1, h2]
      simp

end KanakaData

/-- C4 counterexample: the claim asserts
`categorize_metadata({"Source: Census Bureau"})` returns
`{"source": "Census Bureau", "notes": []}`.  The code never touches the
`"notes"` slot of its `defaultdict` when no note line exists, so the
returned dict has *no* `"notes"` key at all (modelled as `notes = none`,
which differs from the claimed present-but-empty `some []`). -/
theorem KanakaData.c4_notes_key_counterexample :
    (categorize_metadata ["Source: Census Bureau"]).notes = none ∧
    (categorize_metadata ["Source: Census Bureau"]).notes ≠ some [] ∧
    (categorize_metadata ["Source: Census Bureau"]).source =
      some (MetaValue.str "Census Bureau") :=
  ⟨by decide, by decide, by decide⟩

/-- C4 amended: each line whose lowercase form starts with `"source"`
goes to the source bucket with the text up to the first `:` removed and
whitespace trimmed, every other line goes to the notes bucket, a single
source collapses to a bare string — but when no note line exists the
returned dict has no `"notes"` key (rather than an empty list).  The two
pop orders of the two-source set are both covered. -/
theorem KanakaData.c4_categorize_metadata_amended :
    categorize_metadata ["Source: Census Bureau"] =
      { source := some (MetaValue.str "Census Bureau"), notes := none } ∧
    categorize_metadata ["Source: A", "Source: B"] =
      { source := some (MetaValue.list ["A", "B"]), notes := none } ∧
    categorize_metadata ["Source: B", "Source: A"] =
      { source := some (MetaValue.list ["B", "A"]), notes := none } ∧
    (∀ items : List String,
      (categorize_metadata items).notes =
        if noteLines items = [] then none else some (noteLines items)) ∧
    (∀ (items : List String) (s : String), sourceLines items = [s] →
      (categorize_metadata items).source = some (MetaValue.str s)) := by
  refine ⟨by decide, by decide, by decide, ?_, ?_⟩
  · intro items
    simp only [categorize_metadata, categorizeConsume_spec items [] [],
      List.nil_append]
    by_cases h : noteLines items = [] <;> simp [h]
  · intro items s h
    simp only [categorize_metadata, categorizeConsume_spec items [] [],
      List.nil_append, h]

/-- C4 witness: the amended theorem applied at the concrete singleton
source set `{"Source: X"}`. -/
theorem KanakaData.c4_categorize_metadata_amended_witness :
    (categorize_metadata ["Source: X"]).source = some (MetaValue.str "X") ∧
    (categorize_metadata ["Source: X"]).notes =
      if noteLines ["Source: X"] = [] then none
      else some (noteLines ["Source: X"]) :=
  ⟨c4_categorize_metadata_amended.2.2.2.2 ["Source: X"] "X" (by decide),
   c4_categorize_metadata_amended.2.2.2.1 ["Source: X"]⟩

/-! ## C6: titles-sheet resolution -/

namespace KanakaData

/-- The function `List.find?` finds the first satisfying element: the list splits at
the found element with everything before it failing the predicate. -/
theorem find_first_split {α : Type} (p : α → Bool) :
    ∀ (l : List α) (a : α), l.find? p = some a →
      ∃ pre post, l = pre ++ a :: post ∧ (∀ x ∈ pre, p x = false) ∧ p a = true := by
  intro l
  induction l with
  | nil => intro a h; simp [List.find?] at h
  | cons x xs ih =>
    intro a h
    by_cases hx : p x
    · rw [List.find?_cons_of_pos _ hx] at h
      obtain rfl : x = a := by simpa using h
      exact ⟨[], xs, rfl, by simp, hx⟩
    · rw [List.find?_cons_of_neg _ (by simpa using hx)] at h
      obtain ⟨pre, post, rfl, hpre, hpa⟩ := ih a h
      exact ⟨x :: pre, post, rfl, by
        intro y hy
        rcases List.mem_cons.1 hy with rfl | hy
        · simpa using hx
        · exact hpre y hy, hpa⟩

end KanakaData

/-- C6 counterexample: the claim says that with no override the first
sheet key containing `"title"`/`"titles"` *case-insensitively* is
returned.  The code's test is the case-sensitive containment of
`"Titles"`/`"Title"`: for the key list `["my titles"]` the claim's
case-insensitive reading finds `"my titles"`, but the code raises its
`KeyError`. -/
theorem KanakaData.c6_case_insensitive_counterexample :
    find_titles_sheet_name ["my titles"] none =
      Except.error "Title sheet name not found in the DataFrame dictionary." ∧
    strContainsSub (pyLower "my titles") "titles" = true :=
  ⟨rfl, by decide⟩

/-- C6 amended: an explicit override always wins; with no override the
result, when some key is returned, is the first key containing the
substring `"Titles"` or `"Title"` — matched *case-sensitively*; and when
no key passes that case-sensitive test the lookup fails with the
not-found error. -/
theorem KanakaData.c6_titles_sheet_resolution_amended :
    (∀ (keys : List String) (name : String),
      find_titles_sheet_name keys (some name) = Except.ok name) ∧
    (∀ (keys : List String) (k : String),
      find_titles_sheet_name keys none = Except.ok k →
      ∃ pre post, keys = pre ++ k :: post ∧
        (∀ x ∈ pre, (strContainsSub x "Titles" || strContainsSub x "Title") = false) ∧
        (strContainsSub k "Titles" || strContainsSub k "Title") = true) ∧
    (∀ keys : List String,
      (∀ x ∈ keys, (strContainsSub x "Titles" || strContainsSub x "Title") = false) →
      find_titles_sheet_name keys none =
        Except.error "Title sheet name not found in the DataFrame dictionary.") := by
  refine ⟨fun keys name => rfl, ?_, ?_⟩
  · intro keys k h
    unfold find_titles_sheet_name at h
    cases hf : keys.find?
        (fun k => strContainsSub k "Titles" || strContainsSub k "Title") with
    | none => rw [hf] at h; exact absurd h (by simp)
    | some k0 =>
      rw [hf] at h
      have hk : k0 = k := by simpa using h
      subst hk
      exact find_first_split _ keys k0 hf
  · intro keys hall
    unfold find_titles_sheet_name
    cases hf : keys.find?
        (fun k => strContainsSub k "Titles" || strContainsSub k "Title") with
    | none => rfl
    | some k0 =>
      have h1 := List.find?_some hf
      have h2 := List.mem_of_find?_eq_some hf
      rw [hall k0 h2] at h1
      exact absurd h1 (by simp)

/-- C6 witness: the amended theorem applied at concrete key lists, with
the hypotheses discharged by evaluation. -/
theorem KanakaData.c6_titles_sheet_resolution_amended_witness :
    find_titles_sheet_name ["my titles", "Data Titles"] (some "Override") =
      Except.ok "Override" ∧
    find_titles_sheet_name ["Data"] none =
      Except.error "Title sheet name not found in the DataFrame dictionary." :=
  ⟨c6_titles_sheet_resolution_amended.1 ["my titles", "Data Titles"] "Override",
   c6_titles_sheet_resolution_amended.2.2 ["Data"] (by decide)⟩

/-! ## C2: one-shot load semantics -/

namespace KanakaData

/-- A Python-dict insertion never removes a key. -/
theorem mem_keys_dictInsert (m : Manager) (k kIns : MKey) (v : DataFrameEntry)
    (h : k ∈ managerKeys m) : k ∈ managerKeys (dictInsert m kIns v) := by
  unfold dictInsert managerKeys at *
  by_cases ha : m.any (fun p => p.1 = kIns)
  · rw [if_pos ha]
    rcases List.mem_map.1 h with ⟨p, hp, hpk⟩
    apply List.mem_map.2
    refine ⟨if p.1 = kIns then (kIns, v) else p, ?_, ?_⟩
    · exact List.mem_map_of_mem _ hp
    · by_cases hpe : p.1 = kIns
      · rw [if_pos hpe]
        exact hpe.symm.trans hpk
      · rw [if_neg hpe]
        exact hpk
  · rw [if_neg ha]
    rw [List.map_append]
    exact List.mem_append_left _ h

/-- The per-sheet step of `_process_raw_dataframes` only inserts. -/
theorem processSheetStep_shape (tm : TitleMap) (acc : Manager × Nat)
    (se : String × Sheet) :
    ∃ kIns v, (processSheetStep tm acc se).1 = dictInsert acc.1 kIns v := by
  unfold processSheetStep
  by_cases h : se.1 ≠ "Introduction" <;> simp [h]

/-- Keys present before the processing loop are present after it. -/
theorem mem_keys_processFold (tm : TitleMap) (k : MKey) :
    ∀ (sheets : List (String × Sheet)) (acc : Manager × Nat),
      k ∈ managerKeys acc.1 →
      k ∈ managerKeys ((sheets.foldl (processSheetStep tm) acc).1) := by
  intro sheets
  induction sheets with
  | nil => intro acc h; simpa using h
  | cons se rest ih =>
    intro acc h
    rw [List.foldl_cons]
    apply ih
    obtain ⟨kIns, v, hshape⟩ := processSheetStep_shape tm acc se
    rw [hshape]
    exact mem_keys_dictInsert acc.1 k kIns v h

end KanakaData

/-- C2 counterexample: the claim says that with `overwrite=True` the
collection afterwards contains exactly the entries derived from the newly
loaded workbook.  The code never clears the dictionary: after loading the
two-sheet workbook (keys `1`, `2`) and re-loading, with `overwrite=True`,
a workbook whose only sheet is its `Titles` sheet, the entry at key `2` —
derived from sheet `"S1"`, which the new workbook does not contain — is
still present. -/
theorem KanakaData.c2_overwrite_leftover_counterexample :
    (load_workbook [] twoSheetWorkbook).map managerKeys =
      Except.ok [MKey.int 1, MKey.int 2] ∧
    (load_workbook ((load_workbook [] twoSheetWorkbook).toOption.getD [])
        titlesOnlyWorkbook true).map
      (fun m => m.map (fun p => (p.1, p.2.original_sheet_name))) =
    Except.ok [(MKey.int 1, some "Titles"), (MKey.int 2, some "S1")] ∧
    titlesOnlyWorkbook.map (fun p => p.1) = ["Titles"] :=
  ⟨rfl, rfl, rfl⟩

/-- C2 amended: loading into a non-empty collection without
`overwrite=True` raises the state-conflict `ValueError` (leaving the
collection unchanged, since the check precedes any mutation); with
`overwrite=True` the load proceeds and writes the new entries over the
keys it reaches, but every key present before the load is still present
afterwards — entries at keys the new load does not reassign are left
over, rather than the collection holding exactly the new entries. -/
theorem KanakaData.c2_one_shot_load_amended (state : Manager) (wb : Workbook)
    (opts : LoadOpts) :
    (state ≠ [] → load_workbook state wb false opts =
      Except.error "DataFrames already exist. Use 'overwrite=True' to replace them.") ∧
    (∀ m k, load_workbook state wb true opts = Except.ok m →
      k ∈ managerKeys state → k ∈ managerKeys m) := by
  constructor
  · intro h
    simp [load_workbook, h]
  · intro m k hload hk
    unfold load_workbook at hload
    simp only [Bool.not_true, Bool.false_and, Bool.false_eq_true, if_false] at hload
    unfold process_raw_dataframes at hload
    cases hf : find_titles_sheet_name (wb.map (·.1)) opts.titlesSheetNameKw with
    | error e =>
      rw [hf] at hload
      simp at hload
    | ok tsn =>
      rw [hf] at hload
      dsimp only at hload
      cases he : extract_table_names wb tsn
          opts.titleCleaningPatterns opts.titleSheetType with
      | error e =>
        rw [he] at hload
        simp at hload
      | ok titleMap =>
        rw [he] at hload
        dsimp only at hload
        have hm : ((if opts.dropTitleSheet then
            wb.filter (fun p => p.1 ≠ tsn) else wb).foldl
              (processSheetStep titleMap) (state, 1)).1 = m := by
          simpa using hload
        rw [← hm]
        exact mem_keys_processFold titleMap k _ (state, 1) hk

/-- C2 witness: the amended theorem applied at the concrete two-entry
collection produced by the first load and the titles-only workbook. -/
theorem KanakaData.c2_one_shot_load_amended_witness :
    load_workbook ((load_workbook [] twoSheetWorkbook).toOption.getD [])
        titlesOnlyWorkbook false =
      Except.error "DataFrames already exist. Use 'overwrite=True' to replace them." ∧
    MKey.int 2 ∈ managerKeys
      ((load_workbook ((load_workbook [] twoSheetWorkbook).toOption.getD [])
          titlesOnlyWorkbook true).toOption.getD []) := by
  constructor
  · exact (c2_one_shot_load_amended
      ((load_workbook [] twoSheetWorkbook).toOption.getD [])
      titlesOnlyWorkbook {}).1 (by decide)
  · exact (c2_one_shot_load_amended
      ((load_workbook [] twoSheetWorkbook).toOption.getD [])
      titlesOnlyWorkbook {}).2
      ((load_workbook ((load_workbook [] twoSheetWorkbook).toOption.getD [])
          titlesOnlyWorkbook true).toOption.getD [])
      (MKey.int 2) rfl (by decide)

/-! ## C5: unmatched index-sheet rows -/

namespace KanakaData

/-- Every processed entry comes from some input row. -/
theorem processRows_mem {f : DataRow → Option (Option String × Option String × Option String)} :
    ∀ {rows : List (Nat × DataRow)}
      {es : List (Option String × Option String × Option String)},
      processRows f rows = some es →
      ∀ e ∈ es, ∃ p ∈ rows, f p.2 = some e := by
  intro rows
  induction rows with
  | nil =>
    intro es h e he
    obtain rfl : ([] : List (Option String × Option String × Option String)) = es := by
      simpa [processRows] using h
    simp at he
  | cons p rest ih =>
    intro es h e he
    unfold processRows at h
    cases hf : f p.2 with
    | none => rw [hf] at h; simp at h
    | some e0 =>
      rw [hf] at h
      cases hr : processRows f rest with
      | none => rw [hr] at h; simp at h
      | some es' =>
        rw [hr] at h
        obtain rfl : e0 :: es' = es := by simpa using h
        rcases List.mem_cons.1 he with rfl | he'
        · exact ⟨p, List.mem_cons_self _ _, hf⟩
        · obtain ⟨q, hq, hfq⟩ := ih hr e he'
          exact ⟨q, List.mem_cons_of_mem _ hq, hfq⟩

/-- In `normal` mode a processed row is either the all-`None` triple
(an unmatched row) or a recognised marker row: theme `None`, a name
present, and a key that is `"Introduction"` or `"0" ++ suffix`. -/
theorem process_titles_row_normal_shape (pats : Option (List String))
    (row : DataRow) (e : Option String × Option String × Option String)
    (h : process_titles_row "normal" pats row = some e) :
    e = (none, none, none) ∨
      (e.2.1 = none ∧ (∃ nm, e.2.2 = some nm) ∧
        (e.1 = some "Introduction" ∨ ∃ tl, e.1 = some ("0" ++ tl))) := by
  unfold process_titles_row at h
  dsimp only at h
  repeat' split at h
  all_goals try exact absurd (by assumption : ("normal" : String) = "wiki") (by decide)
  all_goals try exact absurd rfl (by assumption : ¬("normal" : String) = "normal")
  all_goals try exact Option.noConfusion h
  all_goals rw [Option.some.injEq] at h
  all_goals subst h
  · exact Or.inr ⟨rfl, ⟨_, rfl⟩, Or.inr ⟨_, rfl⟩⟩
  · exact Or.inr ⟨rfl, ⟨_, rfl⟩, Or.inr ⟨_, rfl⟩⟩
  · exact Or.inr ⟨rfl, ⟨_, rfl⟩, Or.inl rfl⟩
  · exact Or.inl rfl
end KanakaData

/-- C5 counterexample: for the titles sheet with rows
`["Table 1", "A"]` and `["Banner", "B"]`, the claim says the row
`"Banner"` (no recognised marker) yields no entry.  The code maps it to
the `None`-keyed entry `{theme: None, name: None}`, which
`.set_index(0).to_dict(orient="index")` keeps in the returned mapping. -/
theorem KanakaData.c5_null_entry_counterexample :
    extract_table_names unmatchedWorkbook "Titles" =
      Except.ok [(some "01", none, some "A"), (none, none, none)] ∧
    (none, none, none) ∈
      [((some "01" : Option String), (none : Option String), some "A"),
       (none, none, none)] :=
  ⟨rfl, by decide⟩

/-- C5 amended: in `normal` mode an unmatched row never produces an
entry keyed by a string derived from that row; it contributes the
null-keyed, null-valued entry instead.  Concretely: every entry of a
successfully returned mapping is either the all-`None` triple or a
recognised marker row's entry (`"Introduction"` or a `"0"`-prefixed
id, with theme `None` and a name present). -/
theorem KanakaData.c5_unmatched_rows_amended (wb : Workbook) (tsn : String)
    (pats : Option (List String)) (m : TitleMap)
    (h : extract_table_names wb tsn pats "normal" = Except.ok m) :
    ∀ e ∈ m, e = (none, none, none) ∨
      (e.2.1 = none ∧ (∃ nm, e.2.2 = some nm) ∧
        (e.1 = some "Introduction" ∨ ∃ tl, e.1 = some ("0" ++ tl))) := by
  intro e he
  unfold extract_table_names at h
  cases hs : lookupSheet wb tsn with
  | none => rw [hs] at h; simp at h
  | some sheet =>
    rw [hs] at h
    dsimp only at h
    cases hl : firstTableLabel (dropnaAnyLabeled sheet) with
    | none => rw [hl] at h; simp at h
    | some lbl =>
      rw [hl] at h
      dsimp only at h
      cases hp : processRows (process_titles_row "normal" pats)
          (pySliceFrom (dropnaAnyLabeled sheet) ((lbl : Int) - 2)) with
      | none => rw [hp] at h; simp at h
      | some processed =>
        rw [hp] at h
        dsimp only at h
        by_cases hn : (processed.map (·.1)).Nodup
        · rw [if_pos hn] at h
          obtain rfl : processed = m := by simpa using h
          obtain ⟨p, _, hfp⟩ := processRows_mem hp e he
          exact process_titles_row_normal_shape pats p.2 e hfp
        · rw [if_neg hn] at h
          simp at h

/-- C5 witness: the amended theorem applied to the concrete mapping of
the counterexample workbook, at its second (null) entry. -/
theorem KanakaData.c5_unmatched_rows_amended_witness :
    ((none, none, none) : Option String × Option String × Option String) =
        (none, none, none) ∨
      (((none, none, none) : Option String × Option String × Option String).2.1 = none ∧
        (∃ nm, ((none, none, none) :
            Option String × Option String × Option String).2.2 = some nm) ∧
        (((none, none, none) : Option String × Option String × Option String).1 =
            some "Introduction" ∨
          ∃ tl, ((none, none, none) :
              Option String × Option String × Option String).1 = some ("0" ++ tl))) :=
  c5_unmatched_rows_amended unmatchedWorkbook "Titles" none
    [(some "01", none, some "A"), (none, none, none)] rfl
    (none, none, none) (by decide)

/-! ## C9: which occurrences the `glottal_stop` rule removes -/

namespace KanakaData

/-- Shifting the position by one past the head equals shifting the
lookbehind context. -/
theorem ctxAt_shift (p2 p1 : Option Char) (c : Char) (rest : List Char) :
    ∀ i, ctxAt p2 p1 (c :: rest) (i + 1) = ctxAt p1 (some c) rest i := by
  intro i
  match i with
  | 0 => simp [ctxAt]
  | 1 => simp [ctxAt]
  | i + 2 => simp [ctxAt, List.getElem?_cons_succ]

theorem glottalRemovedAt_shift (p2 p1 : Option Char) (c : Char) (rest : List Char)
    (i : Nat) :
    glottalRemovedAt p2 p1 (c :: rest) (i + 1) = glottalRemovedAt p1 (some c) rest i := by
  unfold glottalRemovedAt
  rw [ctxAt_shift, List.getElem?_cons_succ, List.drop_succ_cons]

/-- The sequential `re.sub` scan equals the positional filter: position
`i` survives exactly when the rule does not match there. -/
theorem glottalSub_eq_filter :
    ∀ (cs : List Char) (p2 p1 : Option Char),
      glottalSub p2 p1 cs =
        (List.range cs.length).filterMap
          (fun i => if glottalRemovedAt p2 p1 cs i then none else cs[i]?) := by
  intro cs
  induction cs with
  | nil => intro p2 p1; rfl
  | cons c rest ih =>
    intro p2 p1
    have hr : List.range (c :: rest).length =
        0 :: (List.range rest.length).map Nat.succ := by
      simp [List.range_succ_eq_map]
    rw [hr, List.filterMap_cons, List.filterMap_map]
    have hpt : ((fun i => if glottalRemovedAt p2 p1 (c :: rest) i then none
          else (c :: rest)[i]?) ∘ Nat.succ) =
        (fun i => if glottalRemovedAt p1 (some c) rest i then none else rest[i]?) := by
      funext i
      simp only [Function.comp_apply, glottalRemovedAt_shift p2 p1 c rest i,
        List.getElem?_cons_succ]
    rw [hpt, ← ih]
    have h0 : glottalRemovedAt p2 p1 (c :: rest) 0 = glottalMatch p2 p1 c rest := by
      simp [glottalRemovedAt, ctxAt]
    by_cases hm : glottalMatch p2 p1 c rest
    · rw [glottalSub, if_pos hm]
      rw [h0, if_pos hm]
    · rw [glottalSub, if_neg hm]
      rw [h0, if_neg hm]
      simp

end KanakaData

/-- C9: the `glottal_stop` rule removes exactly the occurrences of the
characters `ÿ`, `'`, `‘` at which neither lookaround guard blocks — not
those starting a possessive `'s` suffix at a word boundary (the
`(?!\w?s\b)` lookahead) and not those after a word-initial word character
(the `(?<!\b\w)` lookbehind); in particular `"Hawai'i"` cleans to
`"Hawaii"`.  The first conjunct characterises the scan positionally for
every string; the second is the spec's example. -/
theorem KanakaData.c9_glottal_stop_characterisation :
    (∀ s : String, (cleanGlottalStop s).toList = glottalSpecFilter s.toList) ∧
    cleanGlottalStop "Hawai'i" = "Hawaii" := by
  constructor
  · intro s
    simpa [cleanGlottalStop, glottalSpecFilter] using
      glottalSub_eq_filter s.toList none none
  · decide

/-! ## C8: idempotence of column-name formatting -/

namespace KanakaData

/-- Functions `String.mk` and `String.toList` are inverse. -/
theorem mk_toList (s : String) : String.mk s.toList = s := rfl

/-- A lowercase-or-underscore character differs from any character that
is neither. -/
theorem lower_or_underscore_ne (c : Char) (h : isLowerAlpha c = true ∨ c = '_')
    (x : Char) (hx : ¬(isLowerAlpha x = true ∨ x = '_')) : c ≠ x := by
  intro e
  subst e
  exact hx h

/-- Lowercasing keeps lowercase-or-underscore characters. -/
theorem pyLowerChar_fix (c : Char) (h : isLowerAlpha c = true ∨ c = '_') :
    pyLowerChar c = c := by
  rcases h with h | h
  · have h1 : 'a' ≤ c ∧ c ≤ 'z' := by simpa [isLowerAlpha] using h
    unfold pyLowerChar
    rw [if_neg]
    intro hc
    simp only [Bool.and_eq_true, decide_eq_true_eq] at hc
    exact absurd (le_trans h1.1 hc.2) (by decide)
  · subst h
    decide

theorem map_id_of (f : Char → Char) :
    ∀ cs : List Char, (∀ c ∈ cs, f c = c) → cs.map f = cs := by
  intro cs
  induction cs with
  | nil => intro _; rfl
  | cons c rest ih =>
    intro h
    rw [List.map_cons, h c (List.mem_cons_self _ _),
      ih (fun x hx => h x (List.mem_cons_of_mem _ hx))]

theorem filter_id_of (p : Char → Bool) :
    ∀ cs : List Char, (∀ c ∈ cs, p c = true) → cs.filter p = cs := by
  intro cs
  induction cs with
  | nil => intro _; rfl
  | cons c rest ih =>
    intro h
    rw [List.filter_cons, if_pos (h c (List.mem_cons_self _ _)),
      ih (fun x hx => h x (List.mem_cons_of_mem _ hx))]

/-- The token split is trivial on delimiter-free input. -/
theorem splitDelimRuns_no_delim :
    ∀ (cs tok : List Char), (∀ c ∈ cs, isTokenDelim c = false) →
      splitDelimRuns tok cs = [tok.reverse ++ cs] := by
  intro cs
  induction cs with
  | nil => intro tok _; simp [splitDelimRuns]
  | cons c rest ih =>
    intro tok h
    have hc : isTokenDelim c = false := h c (List.mem_cons_self _ _)
    rw [splitDelimRuns, if_neg (by simp [hc])]
    rw [ih (c :: tok) (fun x hx => h x (List.mem_cons_of_mem _ hx))]
    simp

theorem slashScan_fix :
    ∀ cs : List Char, (∀ c ∈ cs, isSpaceChar c = false ∧ c ≠ '/') →
      slashScan false [] cs = cs := by
  intro cs
  induction cs with
  | nil => intro _; rfl
  | cons c rest ih =>
    intro h
    obtain ⟨hs, hsl⟩ := h c (List.mem_cons_self _ _)
    rw [slashScan, if_neg (by simp), if_neg (by simp [hsl]), if_neg (by simp [hs])]
    rw [ih (fun x hx => h x (List.mem_cons_of_mem _ hx))]
    rfl

theorem commaSub_fix :
    ∀ cs : List Char, (∀ c ∈ cs, c ≠ ',') → commaSub false cs = cs := by
  intro cs
  induction cs with
  | nil => intro _; rfl
  | cons c rest ih =>
    intro h
    have hc := h c (List.mem_cons_self _ _)
    rw [commaSub, if_neg (by simp), if_neg (by simp [hc])]
    rw [ih (fun x hx => h x (List.mem_cons_of_mem _ hx))]

theorem glottalSub_fix :
    ∀ (cs : List Char) (p2 p1 : Option Char),
      (∀ c ∈ cs, isGlottalChar c = false) → glottalSub p2 p1 cs = cs := by
  intro cs
  induction cs with
  | nil => intro _ _ _; rfl
  | cons c rest ih =>
    intro p2 p1 h
    have hc := h c (List.mem_cons_self _ _)
    rw [glottalSub, if_neg (by simp [glottalMatch, hc])]
    rw [ih p1 (some c) (fun x hx => h x (List.mem_cons_of_mem _ hx))]

theorem dropWhile_underscore_id (cs : List Char) (h : cs.head? ≠ some '_') :
    cs.dropWhile (fun c => c = '_') = cs := by
  cases cs with
  | nil => rfl
  | cons c rest =>
    have hc : ¬c = '_' := by simpa using h
    rw [List.dropWhile_cons, if_neg (by simpa using hc)]

theorem stripUnderscore_fix (cs : List Char) (h1 : cs.head? ≠ some '_')
    (h2 : cs.getLast? ≠ some '_') : stripUnderscoreList cs = cs := by
  unfold stripUnderscoreList
  rw [dropWhile_underscore_id cs h1]
  rw [dropWhile_underscore_id cs.reverse (by rwa [List.head?_reverse])]
  exact List.reverse_reverse cs

theorem joinUnderscore_chars :
    ∀ tokens : List (List Char),
      (∀ t ∈ tokens, t.all isLowerAlpha = true) →
      ∀ c ∈ joinUnderscore tokens, isLowerAlpha c = true ∨ c = '_' := by
  intro tokens
  induction tokens with
  | nil => intro _ c hc; simp [joinUnderscore] at hc
  | cons t ts ih =>
    intro hall c hc
    cases ts with
    | nil =>
      left
      have ht := hall t (List.mem_cons_self _ _)
      simp only [joinUnderscore] at hc
      exact (List.all_eq_true.mp ht) c hc
    | cons t2 ts2 =>
      simp only [joinUnderscore] at hc
      rcases List.mem_append.1 hc with hmem | hmem
      · exact Or.inl ((List.all_eq_true.mp (hall t (List.mem_cons_self _ _))) c hmem)
      · rcases List.mem_cons.1 hmem with rfl | hmem2
        · exact Or.inr rfl
        · exact ih (fun x hx => hall x (List.mem_cons_of_mem _ hx)) c hmem2

theorem joinUnderscore_ne_nil (t : List Char) (ts : List (List Char)) (ht : t ≠ []) :
    joinUnderscore (t :: ts) ≠ [] := by
  cases ts with
  | nil => simpa [joinUnderscore] using ht
  | cons t2 ts2 => simp [joinUnderscore]

theorem joinUnderscore_two_mem (t t2 : List Char) (ts : List (List Char)) :
    '_' ∈ joinUnderscore (t :: t2 :: ts) := by
  simp [joinUnderscore]

theorem joinUnderscore_head (tokens : List (List Char)) (h0 : tokens ≠ [])
    (hne : ∀ t ∈ tokens, t ≠ [])
    (hlow : ∀ t ∈ tokens, t.all isLowerAlpha = true) :
    (joinUnderscore tokens).head? ≠ some '_' := by
  cases tokens with
  | nil => exact absurd rfl h0
  | cons t ts =>
    cases t with
    | nil => exact absurd rfl (hne [] (List.mem_cons_self _ _))
    | cons c tr =>
      have hc : isLowerAlpha c = true := by
        have := List.all_eq_true.mp (hlow (c :: tr) (List.mem_cons_self _ _))
        exact this c (List.mem_cons_self _ _)
      have hhd : (joinUnderscore ((c :: tr) :: ts)).head? = some c := by
        cases ts with
        | nil => simp [joinUnderscore]
        | cons t2 ts2 => simp [joinUnderscore]
      rw [hhd]
      intro hEq
      rw [Option.some.injEq] at hEq
      subst hEq
      exact absurd hc (by decide)

theorem joinUnderscore_getLast :
    ∀ tokens : List (List Char), tokens ≠ [] → (∀ t ∈ tokens, t ≠ []) →
      ∃ tl ∈ tokens, (joinUnderscore tokens).getLast? = tl.getLast? := by
  intro tokens
  induction tokens with
  | nil => intro h _; exact absurd rfl h
  | cons t ts ih =>
    intro _ hall
    cases ts with
    | nil => exact ⟨t, List.mem_cons_self _ _, by simp [joinUnderscore]⟩
    | cons t2 ts2 =>
      obtain ⟨tl, htl, heq⟩ :=
        ih (by simp) (fun x hx => hall x (List.mem_cons_of_mem _ hx))
      refine ⟨tl, List.mem_cons_of_mem _ htl, ?_⟩
      have hne2 : joinUnderscore (t2 :: ts2) ≠ [] :=
        joinUnderscore_ne_nil t2 ts2 (hall t2 (List.mem_cons_of_mem _ (List.mem_cons_self _ _)))
      have hstep : joinUnderscore (t :: t2 :: ts2) =
          t ++ '_' :: joinUnderscore (t2 :: ts2) := rfl
      have hcons : ('_' :: joinUnderscore (t2 :: ts2)).getLast? =
          (joinUnderscore (t2 :: ts2)).getLast? := by
        cases hJ : joinUnderscore (t2 :: ts2) with
        | nil => exact absurd hJ hne2
        | cons b bs => rw [List.getLast?_cons_cons]
      rw [hstep, List.getLast?_append, hcons, heq]
      have htl_ne : tl ≠ [] := hall tl (List.mem_cons_of_mem _ htl)
      cases hx : tl.getLast? with
      | none => exact absurd (List.getLast?_eq_none_iff.mp hx) htl_ne
      | some y => simp [Option.or]

theorem joinUnderscore_last (tokens : List (List Char)) (h0 : tokens ≠ [])
    (hne : ∀ t ∈ tokens, t ≠ [])
    (hlow : ∀ t ∈ tokens, t.all isLowerAlpha = true) :
    (joinUnderscore tokens).getLast? ≠ some '_' := by
  obtain ⟨tl, htl, heq⟩ := joinUnderscore_getLast tokens h0 hne
  rw [heq]
  intro hEq
  have hmem : '_' ∈ tl := List.mem_of_getLast?_eq_some hEq
  have := (List.all_eq_true.mp (hlow tl htl)) '_' hmem
  exact absurd this (by decide)

end KanakaData

namespace KanakaData

/-- The six default cleanup rules leave a lowercase/underscore string
unchanged. -/
theorem defaultColumnClean_fix (s : String)
    (h : ∀ c ∈ s.toList, isLowerAlpha c = true ∨ c = '_') :
    defaultColumnClean s = s := by
  have hslash : cleanSlash s = s := by
    show String.mk (slashScan false [] s.toList) = s
    rw [slashScan_fix s.toList (fun c hc => ⟨by
        have h1 := lower_or_underscore_ne c (h c hc) ' ' (by decide)
        have h2 := lower_or_underscore_ne c (h c hc) '\t' (by decide)
        have h3 := lower_or_underscore_ne c (h c hc) '\n' (by decide)
        have h4 := lower_or_underscore_ne c (h c hc) '\x0d' (by decide)
        have h5 := lower_or_underscore_ne c (h c hc) '\x0b' (by decide)
        have h6 := lower_or_underscore_ne c (h c hc) '\x0c' (by decide)
        simp [isSpaceChar, h1, h2, h3, h4, h5, h6],
      lower_or_underscore_ne c (h c hc) '/' (by decide)⟩)]
    exact mk_toList s
  have hparen : cleanParentheses s = s := by
    show String.mk (s.toList.filter _) = s
    rw [filter_id_of _ s.toList (fun c hc => by
      have h1 := lower_or_underscore_ne c (h c hc) '(' (by decide)
      have h2 := lower_or_underscore_ne c (h c hc) ')' (by decide)
      simp [h1, h2])]
    exact mk_toList s
  have hcomma : cleanComma s = s := by
    show String.mk (commaSub false s.toList) = s
    rw [commaSub_fix s.toList
      (fun c hc => lower_or_underscore_ne c (h c hc) ',' (by decide))]
    exact mk_toList s
  have hhyph : cleanHyphens s = s := by
    show String.mk (hyphensSub s.toList) = s
    unfold hyphensSub
    rw [map_id_of _ s.toList (fun c hc => by
      have h1 := lower_or_underscore_ne c (h c hc) (Char.ofNat 0x2011) (by decide)
      simp [h1])]
    exact mk_toList s
  have hglot : cleanGlottalStop s = s := by
    show String.mk (glottalSub none none s.toList) = s
    rw [glottalSub_fix s.toList none none (fun c hc => by
      have h1 := lower_or_underscore_ne c (h c hc) (Char.ofNat 0xFF) (by decide)
      have h2 := lower_or_underscore_ne c (h c hc) '\'' (by decide)
      have h3 := lower_or_underscore_ne c (h c hc) (Char.ofNat 0x2018) (by decide)
      simp [isGlottalChar, h1, h2, h3])]
    exact mk_toList s
  have hapos : cleanApostrophe s = s := by
    show String.mk (s.toList.filter _) = s
    rw [filter_id_of _ s.toList (fun c hc => by
      have h1 := lower_or_underscore_ne c (h c hc) '\'' (by decide)
      simp [h1])]
    exact mk_toList s
  unfold defaultColumnClean
  rw [hslash, hparen, hcomma, hhyph, hglot, hapos]

end KanakaData

/-- C8 counterexample: the claim says every string of lowercase,
underscore-separated tokens with no ignored words is a fixed point of
`format_column_name`.  The string `"populationa"` satisfies that
hypothesis but is a key of `SUBSTITUTION_MAP`, so
`format_column_name("populationa") = "population" ≠ "populationa"`. -/
theorem KanakaData.c8_substitution_counterexample :
    IsFormattedKey "populationa" ∧
    format_column_name "populationa" = "population" ∧
    format_column_name "populationa" ≠ "populationa" :=
  ⟨⟨["populationa".toList], by decide, rfl, by decide⟩, by decide, by decide⟩

/-- C8 amended: `format_column_name` fixes every string of lowercase,
underscore-separated tokens that contains no ignored word *and is not
itself a key of the substitution table* (the claim as stated fails on
the keys `populationa`, `populationb`, `hawaiiana`, `hawaiianb`);
idempotence on such keys follows. -/
theorem KanakaData.c8_format_idempotent_amended (s : String) (h : IsFormattedKey s)
    (hsub : ∀ p ∈ SUBSTITUTION_MAP, p.1 ≠ s) :
    format_column_name s = s ∧
      format_column_name (format_column_name s) = format_column_name s := by
  obtain ⟨tokens, hne0, hjoin, htok⟩ := h
  have htokne : ∀ t ∈ tokens, t ≠ [] := fun t ht => (htok t ht).1
  have htoklow : ∀ t ∈ tokens, t.all isLowerAlpha = true := fun t ht => (htok t ht).2.1
  have hchars : ∀ c ∈ s.toList, isLowerAlpha c = true ∨ c = '_' := by
    rw [hjoin]
    exact joinUnderscore_chars tokens htoklow
  have hhead : s.toList.head? ≠ some '_' := by
    rw [hjoin]
    exact joinUnderscore_head tokens hne0 htokne htoklow
  have hlast : s.toList.getLast? ≠ some '_' := by
    rw [hjoin]
    exact joinUnderscore_last tokens hne0 htokne htoklow
  have hstruct : tokens = [s.toList] ∨ '_' ∈ s.toList := by
    cases tokens with
    | nil => exact absurd rfl hne0
    | cons t ts =>
      cases ts with
      | nil =>
        left
        simp only [joinUnderscore] at hjoin
        rw [hjoin]
      | cons t2 ts2 =>
        right
        rw [hjoin]
        exact joinUnderscore_two_mem t t2 ts2
  have hs1 : s ≠ "census" := by
    intro hEq
    rcases hstruct with ht | hu
    · have hmem : s.toList ∈ tokens := by rw [ht]; exact List.mem_cons_self _ _
      have := (htok s.toList hmem).2.2
      rw [mk_toList] at this
      exact this (by rw [hEq]; decide)
    · rw [hEq] at hu
      exact absurd hu (by decide)
  have hs2 : s ≠ "estimates" := by
    intro hEq
    rcases hstruct with ht | hu
    · have hmem : s.toList ∈ tokens := by rw [ht]; exact List.mem_cons_self _ _
      have := (htok s.toList hmem).2.2
      rw [mk_toList] at this
      exact this (by rw [hEq]; decide)
    · rw [hEq] at hu
      exact absurd hu (by decide)
  have hfind : SUBSTITUTION_MAP.find? (fun p => p.1 = s) = none :=
    List.find?_eq_none.mpr (fun p hp => by simpa using hsub p hp)
  have hlow : (pyLower s).toList = s.toList := by
    show s.toList.map pyLowerChar = s.toList
    exact map_id_of pyLowerChar s.toList (fun c hc => pyLowerChar_fix c (hchars c hc))
  have hdelim : ∀ c ∈ s.toList, isTokenDelim c = false := by
    intro c hc
    have h1 := lower_or_underscore_ne c (hchars c hc) '.' (by decide)
    have h2 := lower_or_underscore_ne c (hchars c hc) ' ' (by decide)
    simp [isTokenDelim, h1, h2]
  have hsplit : splitDelimRuns [] (pyLower s).toList = [s.toList] := by
    rw [hlow]
    simpa using splitDelimRuns_no_delim s.toList [] hdelim
  have hclean := defaultColumnClean_fix s hchars
  have hcontains : IGNORED_WORDS.contains s = false := by
    simp [IGNORED_WORDS, List.contains, hs1, hs2]
  have hfix : format_column_name s = s := by
    unfold format_column_name
    rw [hsplit]
    dsimp only
    rw [List.foldl_cons, List.foldl_nil]
    try dsimp only
    rw [mk_toList]
    rw [if_neg (by rw [hcontains]; simp)]
    rw [hfind]
    simp only [Option.map_none', Option.getD_none]
    rw [hclean]
    show String.mk (stripUnderscoreList (joinUnderscore ([] ++ [s.toList]))) = s
    rw [List.nil_append]
    have hj : joinUnderscore [s.toList] = s.toList := rfl
    rw [hj, stripUnderscore_fix s.toList hhead hlast]
    exact mk_toList s
  exact ⟨hfix, by rw [hfix, hfix]⟩

/-- C8 witness: the amended theorem applied at the two-token key
`"resident_population"`, with both hypotheses discharged by
evaluation. -/
theorem KanakaData.c8_format_idempotent_amended_witness :
    format_column_name "resident_population" = "resident_population" ∧
      format_column_name (format_column_name "resident_population") =
        format_column_name "resident_population" :=
  c8_format_idempotent_amended "resident_population"
    ⟨["resident".toList, "population".toList], by decide, by decide, by decide⟩
    (by decide)
